import Mathlib

/-!
Verification of the blackjack basic-strategy trainer
(`bj_trainer.py`, `bj_gui_trainer.py`, `bj_gui_trainer_images.py`).

The Python sources are shallowly embedded: card ranks become the inductive
type `Rank`, the four actions become `Act`, and each Python function is
translated to an executable Lean definition.  Randomness
(`random.choice`, `random.shuffle`) is modelled by explicit entropy
parameters: `random.choice(lst)` becomes `randChoice lst d i` (index `i`
into the list, modulo its length; for a possibly-empty list the
`Option`-valued `randChoiceOpt` models the `IndexError` that
`random.choice([])` raises), and `random.shuffle` becomes an arbitrary
length-preserving function passed as a parameter.  Interactive input
becomes an explicit list of submitted actions; shoe draws inside a loop
become a stream `Nat → Rank` of drawn cards.
-/

/-- The thirteen card ranks, `RANKS = ["A","2",...,"10","J","Q","K"]`. -/
inductive Rank where
  | A | r2 | r3 | r4 | r5 | r6 | r7 | r8 | r9 | r10 | J | Q | K
deriving DecidableEq, Repr, Inhabited, Fintype

/-- The list `RANKS` from the sources. -/
def RANKS : List Rank :=
  [.A, .r2, .r3, .r4, .r5, .r6, .r7, .r8, .r9, .r10, .J, .Q, .K]

/-- The `CARD_VALUES` dictionary (Ace counted as 11). -/
def CARD_VALUES : Rank → Nat
  | .A => 11
  | .r2 => 2 | .r3 => 3 | .r4 => 4 | .r5 => 5 | .r6 => 6
  | .r7 => 7 | .r8 => 8 | .r9 => 9
  | .r10 => 10 | .J => 10 | .Q => 10 | .K => 10

/-- `normalize_rank`: collapses 10/J/Q/K to the ten class. -/
def normalize_rank (c : Rank) : Rank :=
  if c ∈ [Rank.r10, Rank.J, Rank.Q, Rank.K] then Rank.r10 else c

/-- The list comprehension `[normalize_rank(c) if c in ["J","Q","K"] else c
for c in cards]` used before every `hand_value` call in `bj_trainer.py`. -/
def mapJQK (c : Rank) : Rank :=
  if c ∈ [Rank.J, Rank.Q, Rank.K] then normalize_rank c else c

/-- The four strategy actions returned as strings "H","S","D","P" in the
sources. -/
inductive Act where
  | H | S | D | P
deriving DecidableEq, Repr, Fintype

/-- The ace-adjustment loop of `hand_value`:
`while total > 21 and aces > 0: total -= 10; aces -= 1`. -/
def reduceAces : Nat → Nat → Nat
  | total, 0 => total
  | total, aces + 1 => if 21 < total then reduceAces (total - 10) aces else total

/-- The per-card contribution to the all-aces-as-one total
(`1 if c == "A" else CARD_VALUES[c]`). -/
def hardVal (c : Rank) : Nat := if c = Rank.A then 1 else CARD_VALUES c

/-- `hard_total = sum(1 if c == "A" else CARD_VALUES[c] for c in cards)`
from `hand_value`. -/
def hardTotal (cards : List Rank) : Nat := (cards.map hardVal).sum

/-- `hand_value` from `bj_trainer.py` (lines 16-30): start from the
Ace=11 sum, run the ace-adjustment loop, and report softness as
"an Ace is present and the total differs from the hard total" (the
effective `is_soft` computation on line 29; line 25 is overwritten). -/
def hand_value (cards : List Rank) : Nat × Bool :=
  let total := reduceAces ((cards.map CARD_VALUES).sum) (cards.count Rank.A)
  (total, cards.contains Rank.A && (total != hardTotal cards))

/-- `is_blackjack` from `bj_trainer.py` (lines 32-34), with Python's
`and`/`or` precedence made explicit. -/
def is_blackjack (cards : List Rank) : Bool :=
  (cards.length == 2 && decide (cards.toFinset = ({Rank.A, Rank.r10} : Finset Rank)))
  || (cards.length == 2 && cards.contains Rank.A
      && cards.any fun c => decide (c ∈ [Rank.r10, Rank.J, Rank.Q, Rank.K]))

/-- `can_split` from `bj_trainer.py`: exactly two cards with equal
normalized (ten-group collapsed) ranks. -/
def can_split (cards : List Rank) : Bool :=
  match cards with
  | [a, b] => normalize_rank a == normalize_rank b
  | _ => false

-- ===== Arithmetic facts about the ace-adjustment loop =====

/-- The Ace=11 sum is the hard total plus ten per ace. -/
theorem sum_values_eq (cards : List Rank) :
    (cards.map CARD_VALUES).sum = hardTotal cards + 10 * cards.count Rank.A := by
  induction cards with
  | nil => simp [hardTotal]
  | cons c cs ih =>
    simp only [List.map_cons, List.sum_cons, hardTotal, List.count_cons, ih]
    by_cases hc : c = Rank.A
    · subst hc
      simp [hardTotal, hardVal, CARD_VALUES]
      ring
    · have hb : (Rank.A == c) = false := by
        simp [beq_iff_eq]
        exact fun h => hc h.symm
      simp [hardTotal, hardVal, hc, hb]
      ring

/-- Behaviour of the ace-adjustment loop started at `h + 10*a` with `a`
aces: the result is `h + 10*k` for some `k ≤ a`, it is `≤ 21` unless all
aces were reduced, and it dominates every achievable value that is
`≤ 21`. -/
theorem reduceAces_spec (a h : Nat) :
    ∃ k, k ≤ a ∧ reduceAces (h + 10 * a) a = h + 10 * k ∧
      (reduceAces (h + 10 * a) a ≤ 21 ∨ k = 0) ∧
      (∀ j, j ≤ a → h + 10 * j ≤ 21 → h + 10 * j ≤ reduceAces (h + 10 * a) a) := by
  induction a generalizing h with
  | zero =>
    refine ⟨0, le_rfl, by simp [reduceAces], Or.inr rfl, ?_⟩
    intro j hj _
    simp only [reduceAces]
    omega
  | succ n ih =>
    by_cases hgt : 21 < h + 10 * (n + 1)
    · have hstep : reduceAces (h + 10 * (n + 1)) (n + 1) = reduceAces (h + 10 * n) n := by
        have harg : h + 10 * (n + 1) - 10 = h + 10 * n := by omega
        simp [reduceAces, hgt, harg]
      obtain ⟨k, hk, heq, hle, hmax⟩ := ih h
      refine ⟨k, Nat.le_succ_of_le hk, by rw [hstep]; exact heq, ?_, ?_⟩
      · rcases hle with hle | hle
        · exact Or.inl (by rw [hstep]; exact hle)
        · exact Or.inr hle
      · intro j hj hj21
        have hjn : j ≤ n := by omega
        rw [hstep]
        exact hmax j hjn hj21
    · have hstep : reduceAces (h + 10 * (n + 1)) (n + 1) = h + 10 * (n + 1) := by
        simp [reduceAces, hgt]
      refine ⟨n + 1, le_rfl, hstep, Or.inl (by omega), ?_⟩
      intro j hj _
      rw [hstep]
      omega

/-- The total reported by `hand_value` is at least the hard total. -/
theorem hand_value_fst_ge_hard (cards : List Rank) :
    hardTotal cards ≤ (hand_value cards).1 := by
  obtain ⟨k, _, heq, _, _⟩ := reduceAces_spec (cards.count Rank.A) (hardTotal cards)
  simp only [hand_value, sum_values_eq]
  omega

-- ===== Basic strategy (bj_trainer.py lines 85-159) =====

/-- `basic_strategy_action` from `bj_trainer.py`.  Python's early
`return`s inside the split and soft sections are modelled by `Option`
layers that fall through to the next section when no branch fires
(mirroring the literal control flow, including branches that are in
fact unreachable). -/
def basic_strategy_action (player_cards : List Rank) (dealer_up : Rank)
    (can_double : Bool) (can_split_now : Bool) : Act :=
  let up := normalize_rank dealer_up
  let pairRes : Option Act :=
    if can_split_now && can_split player_cards then
      let pr := normalize_rank player_cards.headI
      if pr = Rank.A then some .P
      else if pr = Rank.r8 then some .P
      else if pr = Rank.r10 then some .S
      else if pr = Rank.r9 then
        some (if up ∈ [Rank.r2, Rank.r3, Rank.r4, Rank.r5, Rank.r6, Rank.r8, Rank.r9] then .P else .S)
      else if pr = Rank.r7 then
        some (if up ∈ [Rank.r2, Rank.r3, Rank.r4, Rank.r5, Rank.r6, Rank.r7] then .P else .H)
      else if pr = Rank.r6 then
        some (if up ∈ [Rank.r2, Rank.r3, Rank.r4, Rank.r5, Rank.r6] then .P else .H)
      else if pr = Rank.r5 then
        some (if up ∈ [Rank.r2, Rank.r3, Rank.r4, Rank.r5, Rank.r6, Rank.r7, Rank.r8, Rank.r9]
                 && can_double then .D else .H)
      else if pr = Rank.r4 then
        some (if up ∈ [Rank.r5, Rank.r6] then .P else .H)
      else if pr ∈ [Rank.r2, Rank.r3] then
        some (if up ∈ [Rank.r2, Rank.r3, Rank.r4, Rank.r5, Rank.r6, Rank.r7] then .P else .H)
      else none
    else none
  match pairRes with
  | some a => a
  | none =>
    let tv := hand_value (player_cards.map mapJQK)
    let total := tv.1
    let soft := tv.2
    let softRes : Option Act :=
      if soft then
        if total ≤ 17 then
          some (if can_double && decide (total ∈ [13, 14]) && decide (up ∈ [Rank.r5, Rank.r6]) then .D
            else if can_double && decide (total ∈ [15, 16]) && decide (up ∈ [Rank.r4, Rank.r5, Rank.r6]) then .D
            else if can_double && total == 17 && decide (up ∈ [Rank.r3, Rank.r4, Rank.r5, Rank.r6]) then .D
            else .H)
        else if total = 18 then
          some (if can_double && decide (up ∈ [Rank.r3, Rank.r4, Rank.r5, Rank.r6]) then .D
            else if up ∈ [Rank.r2, Rank.r7, Rank.r8] then .S
            else .H)
        else if total = 19 then
          some (if can_double && up == Rank.r6 then .D else .S)
        else if 20 ≤ total then some .S
        else none
      else none
    match softRes with
    | some a => a
    | none =>
      if total ≤ 8 then .H
      else if total = 9 then
        (if up ∈ [Rank.r3, Rank.r4, Rank.r5, Rank.r6] && can_double then .D else .H)
      else if total = 10 then
        (if up ∈ [Rank.r2, Rank.r3, Rank.r4, Rank.r5, Rank.r6, Rank.r7, Rank.r8, Rank.r9]
            && can_double then .D else .H)
      else if total = 11 then
        (if can_double && up != Rank.A then .D else .H)
      else if total = 12 then
        (if up ∈ [Rank.r4, Rank.r5, Rank.r6] then .S else .H)
      else if 13 ≤ total && total ≤ 16 then
        (if up ∈ [Rank.r2, Rank.r3, Rank.r4, Rank.r5, Rank.r6] then .S else .H)
      else .S

-- ===== Shoe (bj_trainer.py lines 61-78) =====

/-- One deck in build order: for each rank in `RANKS`, four copies
(`self.cards.extend([r]*4)`). -/
def deckCards : List Rank :=
  RANKS.foldr (fun r acc => List.replicate 4 r ++ acc) []

/-- `Shoe._build` before the shuffle: `decks` copies of a 52-card deck. -/
def buildCards : Nat → List Rank
  | 0 => []
  | d + 1 => deckCards ++ buildCards d

/-- The `Shoe` object: deck count plus current card pool. -/
structure Shoe where
  decks : Nat
  cards : List Rank
deriving Repr, DecidableEq

/-- `Shoe.draw`: rebuild-and-reshuffle when fewer than 52 cards remain,
then `pop()` (remove and return the LAST card).  The shuffle is an
arbitrary function supplied by the caller; `none` models the
`IndexError` of popping an empty list. -/
def Shoe.draw (shuffle : List Rank → List Rank) (s : Shoe) : Option (Rank × Shoe) :=
  let pool := if s.cards.length < 52 then shuffle (buildCards s.decks) else s.cards
  match pool.reverse with
  | [] => none
  | c :: rest => some (c, { s with cards := rest.reverse })

theorem deckCards_length : deckCards.length = 52 := by decide

theorem buildCards_length (d : Nat) : (buildCards d).length = d * 52 := by
  induction d with
  | zero => simp [buildCards]
  | succ n ih =>
    simp [buildCards, ih, deckCards_length]
    ring

-- ===== Scenario generator (bj_trainer.py lines 165-210) =====

/-- `random.choice` on a list known non-empty: index `i` modulo the
length, with a default for the (never-used) empty case. -/
def randChoice {α : Type} (l : List α) (d : α) (i : Nat) : α :=
  l.getD (i % l.length) d

/-- `random.choice` on a possibly-empty list: `none` models the
`IndexError` raised by `random.choice([])`. -/
def randChoiceOpt {α : Type} (l : List α) (i : Nat) : Option α :=
  l.get? (i % l.length)

/-- The `Weights` dataclass.  Fields are `Int` because Python ints may
be negative (list repetition `["x"] * n` clamps negatives to empty,
modelled by `Int.toNat`). -/
structure Weights where
  hard : Int
  soft : Int
  pair : Int
deriving Repr, DecidableEq

/-- The three training categories (the strings "hard"/"soft"/"pair"). -/
inductive Cat where
  | hard | soft | pair
deriving DecidableEq, Repr

/-- `random_dealer_up` choice pool in `bj_trainer.py` and
`bj_gui_trainer.py`: the ten normalized classes. -/
def upPool : List Rank :=
  [.r2, .r3, .r4, .r5, .r6, .r7, .r8, .r9, .r10, .A]

/-- `random_dealer_up` from `bj_trainer.py` / `bj_gui_trainer.py`. -/
def random_dealer_up (i : Nat) : Rank := randChoice upPool Rank.r2 i

/-- `gen_soft_hand`: an Ace plus a uniform rank from 2..9. -/
def gen_soft_hand (i : Nat) : List Rank :=
  [Rank.A, randChoice [Rank.r2, Rank.r3, Rank.r4, Rank.r5, Rank.r6, Rank.r7, Rank.r8, Rank.r9] Rank.r2 i]

/-- `gen_pair_hand` (text / plain-GUI variants): one rank from
{A,2..9,10}, twice. -/
def gen_pair_hand (i : Nat) : List Rank :=
  let r := randChoice [Rank.A, Rank.r2, Rank.r3, Rank.r4, Rank.r5, Rank.r6, Rank.r7, Rank.r8, Rank.r9, Rank.r10] Rank.A i
  [r, r]

/-- The 2..10 pool both `gen_hard_hand` cards are drawn from. -/
def hardPool : List Rank :=
  [.r2, .r3, .r4, .r5, .r6, .r7, .r8, .r9, .r10]

/-- `gen_hard_hand`: rejection-sample two cards from 2..10 until the
value sum lies in [5,20].  Each loop iteration consumes one entry of
the entropy list; `none` models entropy exhaustion (the Python loop
would keep retrying). -/
def gen_hard_hand : List (Nat × Nat) → Option (List Rank)
  | [] => none
  | (i, j) :: rest =>
    let c1 := randChoice hardPool Rank.r2 i
    let c2 := randChoice hardPool Rank.r2 j
    let total := CARD_VALUES c1 + CARD_VALUES c2
    if 5 ≤ total ∧ total ≤ 20 then some [c1, c2] else gen_hard_hand rest

/-- The weighted category pool of `pick_training_hand` in
`bj_trainer.py` (line 203): no emptiness guard. -/
def choicesPool (w : Weights) : List Cat :=
  List.replicate w.hard.toNat Cat.hard ++ List.replicate w.soft.toNat Cat.soft
    ++ List.replicate w.pair.toNat Cat.pair

/-- `pick_training_hand` from `bj_trainer.py` (lines 198-210).
`random.choice(choices)` on the unguarded pool is `randChoiceOpt`:
with an empty pool it raises `IndexError`, modelled as `none`. -/
def pick_training_hand (w : Weights) (iCat iUp iGen : Nat)
    (attempts : List (Nat × Nat)) : Option (List Rank × Rank × Cat) :=
  match randChoiceOpt (choicesPool w) iCat with
  | none => none
  | some cat =>
    let dealer_up := random_dealer_up iUp
    match cat with
    | Cat.soft => some (gen_soft_hand iGen, dealer_up, Cat.soft)
    | Cat.pair => some (gen_pair_hand iGen, dealer_up, Cat.pair)
    | Cat.hard => (gen_hard_hand attempts).map fun h => (h, dealer_up, Cat.hard)

namespace GUI

/-- The guarded category pool of `pick_training_hand` in
`bj_gui_trainer.py` (lines 118-120): negative weights clamped by
`max(0, ·)`, then the `["hard"]` fallback when empty. -/
def pool (w : Weights) : List Cat :=
  let pool0 := List.replicate (max 0 w.hard).toNat Cat.hard
    ++ List.replicate (max 0 w.soft).toNat Cat.soft
    ++ List.replicate (max 0 w.pair).toNat Cat.pair
  if pool0.isEmpty then [Cat.hard] else pool0

/-- `pick_training_hand` from `bj_gui_trainer.py` (lines 117-127); the
category/dealer/hand generators are verbatim copies of the text-mode
ones and are reused. -/
def pick_training_hand (w : Weights) (iCat iUp iGen : Nat)
    (attempts : List (Nat × Nat)) : Option (List Rank × Rank × Cat) :=
  match randChoiceOpt (pool w) iCat with
  | none => none
  | some cat =>
    let dealer := random_dealer_up iUp
    match cat with
    | Cat.soft => some (gen_soft_hand iGen, dealer, Cat.soft)
    | Cat.pair => some (gen_pair_hand iGen, dealer, Cat.pair)
    | Cat.hard => (gen_hard_hand attempts).map fun h => (h, dealer, Cat.hard)

end GUI

-- ===== Plain GUI variant (bj_gui_trainer.py) =====

namespace GUI

/-- `hand_value` from `bj_gui_trainer.py` (lines 20-31): normalizes the
ranks first, then runs the same ace-adjustment loop. -/
def hand_value (cards : List Rank) : Nat × Bool :=
  let vals := cards.map normalize_rank
  let total := reduceAces
    ((vals.map fun c => if c = Rank.A then 11 else CARD_VALUES c).sum)
    (vals.count Rank.A)
  let hard_total := (vals.map fun c => if c = Rank.A then 1 else CARD_VALUES c).sum
  (total, vals.contains Rank.A && (total != hard_total))

/-- `can_split` from `bj_gui_trainer.py` (lines 33-38). -/
def can_split (cards : List Rank) : Bool :=
  match cards with
  | [a, b] => normalize_rank a == normalize_rank b
  | _ => false

/-- `basic_strategy_action` from `bj_gui_trainer.py` (lines 44-87);
same table as the text variant but evaluated over `GUI.hand_value`. -/
def basic_strategy_action (player_cards : List Rank) (dealer_up : Rank)
    (can_double : Bool) (can_split_now : Bool) : Act :=
  let up := normalize_rank dealer_up
  let pairRes : Option Act :=
    if can_split_now && can_split player_cards then
      let pr := normalize_rank player_cards.headI
      if pr = Rank.A then some .P
      else if pr = Rank.r8 then some .P
      else if pr = Rank.r10 then some .S
      else if pr = Rank.r9 then
        some (if up ∈ [Rank.r2, Rank.r3, Rank.r4, Rank.r5, Rank.r6, Rank.r8, Rank.r9] then .P else .S)
      else if pr = Rank.r7 then
        some (if up ∈ [Rank.r2, Rank.r3, Rank.r4, Rank.r5, Rank.r6, Rank.r7] then .P else .H)
      else if pr = Rank.r6 then
        some (if up ∈ [Rank.r2, Rank.r3, Rank.r4, Rank.r5, Rank.r6] then .P else .H)
      else if pr = Rank.r5 then
        some (if can_double
                 && decide (up ∈ [Rank.r2, Rank.r3, Rank.r4, Rank.r5, Rank.r6, Rank.r7, Rank.r8, Rank.r9])
              then .D else .H)
      else if pr = Rank.r4 then
        some (if up ∈ [Rank.r5, Rank.r6] then .P else .H)
      else if pr ∈ [Rank.r2, Rank.r3] then
        some (if up ∈ [Rank.r2, Rank.r3, Rank.r4, Rank.r5, Rank.r6, Rank.r7] then .P else .H)
      else none
    else none
  match pairRes with
  | some a => a
  | none =>
    let tv := hand_value player_cards
    let total := tv.1
    let soft := tv.2
    if soft then
      if total ≤ 17 then
        if can_double && decide (total ∈ [13, 14]) && decide (up ∈ [Rank.r5, Rank.r6]) then .D
        else if can_double && decide (total ∈ [15, 16]) && decide (up ∈ [Rank.r4, Rank.r5, Rank.r6]) then .D
        else if can_double && total == 17 && decide (up ∈ [Rank.r3, Rank.r4, Rank.r5, Rank.r6]) then .D
        else .H
      else if total = 18 then
        if can_double && decide (up ∈ [Rank.r3, Rank.r4, Rank.r5, Rank.r6]) then .D
        else if up ∈ [Rank.r2, Rank.r7, Rank.r8] then .S
        else .H
      else if total = 19 then
        if can_double && up == Rank.r6 then .D else .S
      else .S
    else
      if total ≤ 8 then .H
      else if total = 9 then
        (if can_double && decide (up ∈ [Rank.r3, Rank.r4, Rank.r5, Rank.r6]) then .D else .H)
      else if total = 10 then
        (if can_double
            && decide (up ∈ [Rank.r2, Rank.r3, Rank.r4, Rank.r5, Rank.r6, Rank.r7, Rank.r8, Rank.r9])
         then .D else .H)
      else if total = 11 then
        (if can_double && up != Rank.A then .D else .H)
      else if total = 12 then
        (if up ∈ [Rank.r4, Rank.r5, Rank.r6] then .S else .H)
      else if 13 ≤ total && total ≤ 16 then
        (if up ∈ [Rank.r2, Rank.r3, Rank.r4, Rank.r5, Rank.r6] then .S else .H)
      else .S

/-- The state of `BJTrainerGUI` relevant to scoring: current scenario,
round flags and the session counters. -/
structure GUIState where
  player_cards : List Rank
  dealer_up : Rank
  has_hit : Bool
  locked : Bool
  correct : Nat
  total : Nat
deriving Repr, DecidableEq

/-- `BJTrainerGUI.choose` from `bj_gui_trainer.py` (lines 280-299):
early return when locked; otherwise compute the reference action with
the instantaneous capability flags, score, and lock.  (Feedback-label
and score-label rendering are presentation-only and omitted.) -/
def choose (s : GUIState) (action : Act) : GUIState :=
  if s.locked then s
  else
    let can_double_now := !s.has_hit && s.player_cards.length == 2
    let can_split_now := !s.has_hit && s.player_cards.length == 2 && can_split s.player_cards
    let sug := basic_strategy_action s.player_cards s.dealer_up can_double_now can_split_now
    { s with
      total := s.total + 1
      correct := if action = sug then s.correct + 1 else s.correct
      locked := true }

end GUI

-- ===== Images variant (bj_gui_trainer_images.py) =====

namespace Img

/-- The four suits, `SUITS = ["S","H","D","C"]`. -/
inductive Suit where
  | S | H | D | C
deriving DecidableEq, Repr, Fintype

/-- The list `SUITS`. -/
def SUITS : List Suit := [.S, .H, .D, .C]

/-- A suited card such as the string "AS" or "10H". -/
structure SCard where
  rank : Rank
  suit : Suit
deriving DecidableEq, Repr

/-- `random_card(rank=None)` from `bj_gui_trainer_images.py`
(lines 117-120): use the given rank, or draw one uniformly from
`RANKS`; the suit is drawn uniformly and independently. -/
def random_card (rank : Option Rank) (ri si : Nat) : SCard :=
  let r := match rank with
    | some r => r
    | none => randChoice RANKS Rank.A ri
  { rank := r, suit := randChoice SUITS Suit.S si }

/-- `random_dealer_up` choice pool in the images variant (line 124):
all THIRTEEN raw ranks, not the ten normalized classes. -/
def upPool : List Rank :=
  [.r2, .r3, .r4, .r5, .r6, .r7, .r8, .r9, .r10, .A, .J, .Q, .K]

/-- `random_dealer_up` from `bj_gui_trainer_images.py` (lines 122-125). -/
def random_dealer_up (i si : Nat) : SCard :=
  random_card (some (randChoice upPool Rank.r2 i)) 0 si

/-- `gen_pair_hand` rank pool in the images variant (line 132). -/
def pairPool : List Rank :=
  [.A, .r2, .r3, .r4, .r5, .r6, .r7, .r8, .r9, .r10, .J, .Q, .K]

/-- `gen_pair_hand` from `bj_gui_trainer_images.py` (lines 131-133):
one rank, then two independently suited cards of that rank. -/
def gen_pair_hand (ir s1 s2 : Nat) : List SCard :=
  let r := randChoice pairPool Rank.A ir
  [random_card (some r) 0 s1, random_card (some r) 0 s2]

end Img

-- ===== Round engine (bj_trainer.py lines 228-367, 400-407) =====

/-- `allowed_actions` from `bj_trainer.py` (lines 228-235): Hit/Stand
always; Double (and Split on a pair) only before any hit with exactly
two cards. -/
def allowed_actions (player_cards : List Rank) (has_hit : Bool) : List Act :=
  let acts : List Act := [.H, .S]
  if !has_hit && player_cards.length == 2 then
    let acts := acts ++ [.D]
    if can_split player_cards then acts ++ [.P] else acts
  else acts

/-- The `Split` branch of `run_one_hand` (lines 346-355): keep the
first card, draw one new card, reset `has_hit`. -/
def split_step (player_cards : List Rank) (drawn : Rank) : List Rank × Bool :=
  ([player_cards.headI, drawn], false)

/-- `dealer_play` from `bj_trainer.py` (lines 237-247): draw while the
(ten-group normalized) total is below 17; stand on any 17 or more,
with the explicit soft-17 stand branch kept.  Shoe draws are modelled
by the stream `stream` read at successive indices. -/
def dealer_play (stream : Nat → Rank) (idx : Nat) (cards : List Rank) : List Rank :=
  if h : (hand_value (cards.map mapJQK)).1 < 17 then
    dealer_play stream (idx + 1) (cards ++ [stream idx])
  else if (hand_value (cards.map mapJQK)).1 = 17 ∧ (hand_value (cards.map mapJQK)).2 = true then
    cards
  else cards
termination_by 17 - hardTotal (cards.map mapJQK)
decreasing_by
  have h1 := hand_value_fst_ge_hard (cards.map mapJQK)
  have h2 : 1 ≤ hardVal (mapJQK (stream idx)) := by
    cases hc : stream idx <;> simp [hardVal, mapJQK, normalize_rank, CARD_VALUES]
  have h3 : hardTotal ((cards ++ [stream idx]).map mapJQK)
      = hardTotal (cards.map mapJQK) + hardVal (mapJQK (stream idx)) := by
    simp [hardTotal, List.map_append]
  omega

/-- The inner input loop of `run_one_hand`: keep reading submitted
actions until one is in the allowed list (invalid entries are consumed
and re-prompted); `none` models running out of input. -/
def nextValid (acts : List Act) : List Act → Option (Act × List Act)
  | [] => none
  | a :: rest => if a ∈ acts then some (a, rest) else nextValid acts rest

theorem nextValid_length {acts : List Act} :
    ∀ {l : List Act} {a : Act} {rest : List Act},
      nextValid acts l = some (a, rest) → rest.length < l.length := by
  intro l
  induction l with
  | nil => intro a rest h; simp [nextValid] at h
  | cons x xs ih =>
    intro a rest h
    by_cases hx : x ∈ acts
    · simp [nextValid, hx] at h
      simp [← h.2]
    · simp [nextValid, hx] at h
      exact Nat.lt_trans (ih h) (Nat.lt_succ_self _)

/-- The main play loop of `run_one_hand` (lines 296-355): score the
first decision against basic strategy, then resolve Hit / Stand /
Double / Split.  Shoe draws come from `draws`; the player's submitted
actions come from `decisions` (one valid action consumed per
iteration).  Returns `matched_basic`; `none` models exhausting the
submitted actions while the round is still unresolved. -/
def playLoop (dealer_up : Rank) (draws : Nat → Rank) (di : Nat)
    (decisions : List Act) (cards : List Rank)
    (has_hit first_decision matched : Bool) : Option Bool :=
  match hnv : nextValid (allowed_actions cards has_hit) decisions with
  | none => none
  | some (action, rest) =>
    let acts := allowed_actions cards has_hit
    let matched2 := if first_decision
      then action == basic_strategy_action cards dealer_up (acts.contains Act.D) (acts.contains Act.P)
      else matched
    match action with
    | Act.S => some matched2
    | Act.H =>
      let cards2 := cards ++ [draws di]
      if 21 < (hand_value (cards2.map mapJQK)).1 then some matched2
      else playLoop dealer_up draws (di + 1) rest cards2 true false matched2
    | Act.D => some matched2
    | Act.P =>
      playLoop dealer_up draws (di + 1) rest
        (split_step cards (draws di)).1 (split_step cards (draws di)).2 false matched2
termination_by decisions.length
decreasing_by
  all_goals exact nextValid_length hnv

/-- `run_one_hand` (lines 262-367) after the deal, for an
already-chosen player hand and dealer upcard: a dealt blackjack skips
the quiz and returns `True` immediately; otherwise the play loop runs
and its `matched_basic` is returned.  (Dealer play and settlement only
produce printed output after the return value is fixed.) -/
def run_one_hand (player_cards : List Rank) (dealer_up : Rank)
    (draws : Nat → Rank) (decisions : List Act) : Option Bool :=
  if is_blackjack player_cards then some true
  else playLoop dealer_up draws 0 decisions player_cards false true true

/-- The per-round session update in `main` (lines 400-407):
`total += 1; if ok: correct += 1`. -/
def session_update (correct total : Nat) (ok : Bool) : Nat × Nat :=
  (if ok then correct + 1 else correct, total + 1)

-- ===== Claim theorems =====

/-- Claim C1: for every hand, `hand_value` returns `(total, isSoft)`
where `total` is an achievable Ace-assignment value, dominates every
achievable value that is ≤ 21, and equals the all-aces-as-one hard
total whenever it exceeds 21 (so it is the highest value ≤ 21 when one
exists, else the minimal value); `isSoft` holds iff an Ace is present
and the total differs from the hard total, and `isSoft` never holds
with a total above 21.  The spec's three example hands evaluate as
stated. -/
theorem c1_hand_value_best_and_soft :
    (∀ cards : List Rank,
      (∃ k, k ≤ cards.count Rank.A ∧ (hand_value cards).1 = hardTotal cards + 10 * k) ∧
      (∀ j, j ≤ cards.count Rank.A → hardTotal cards + 10 * j ≤ 21 →
        hardTotal cards + 10 * j ≤ (hand_value cards).1) ∧
      (21 < (hand_value cards).1 → (hand_value cards).1 = hardTotal cards) ∧
      ((hand_value cards).2 = true ↔ Rank.A ∈ cards ∧ (hand_value cards).1 ≠ hardTotal cards) ∧
      ((hand_value cards).2 = true → (hand_value cards).1 ≤ 21)) ∧
    hand_value [Rank.A, Rank.A, Rank.r9] = (21, true) ∧
    hand_value [Rank.A, Rank.A] = (12, true) ∧
    hand_value [Rank.r10, Rank.r10, Rank.A] = (21, false) := by
  refine ⟨?_, by decide, by decide, by decide⟩
  intro cards
  obtain ⟨k, hk, heq, hle, hmax⟩ := reduceAces_spec (cards.count Rank.A) (hardTotal cards)
  have ht : (hand_value cards).1
      = reduceAces (hardTotal cards + 10 * cards.count Rank.A) (cards.count Rank.A) := by
    simp only [hand_value]
    rw [sum_values_eq]
  have hsnd : (hand_value cards).2
      = (cards.contains Rank.A && ((hand_value cards).1 != hardTotal cards)) := rfl
  have hiff : (hand_value cards).2 = true ↔
      Rank.A ∈ cards ∧ (hand_value cards).1 ≠ hardTotal cards := by
    rw [hsnd]
    simp
  refine ⟨⟨k, hk, by omega⟩, ?_, ?_, hiff, ?_⟩
  · intro j hj hj21
    have := hmax j hj hj21
    omega
  · intro hgt
    omega
  · intro hsoft
    have hne := (hiff.mp hsoft).2
    omega

/-- Witness for C1: instantiating the maximality clause on the hand
A+5 at one Ace counted as 11 yields a total of at least 16. -/
theorem c1_witness :
    hardTotal [Rank.A, Rank.r5] + 10 * 1 ≤ (hand_value [Rank.A, Rank.r5]).1 :=
  (c1_hand_value_best_and_soft.1 [Rank.A, Rank.r5]).2.1 1 (by decide) (by decide)

/-- Claim C2 (code evaluated at the failing input): in `bj_trainer.py`
the category pool of `pick_training_hand` has no emptiness guard, so
with all three weights zero `random.choice` is applied to an empty
pool and fails (modelled as `none`) for every random stream — there is
no fallback.  The GUI variants do guard it: at zero weights their pool
is exactly `[hard]` and the sampled category is always `hard`. -/
theorem c2_zero_weights_console_fails :
    (∀ iCat iUp iGen : Nat, ∀ attempts : List (Nat × Nat),
      pick_training_hand ⟨0, 0, 0⟩ iCat iUp iGen attempts = none) ∧
    GUI.pool ⟨0, 0, 0⟩ = [Cat.hard] ∧
    (∀ iCat : Nat, randChoiceOpt (GUI.pool ⟨0, 0, 0⟩) iCat = some Cat.hard) := by
  have hpool : GUI.pool ⟨0, 0, 0⟩ = [Cat.hard] := by decide
  refine ⟨?_, hpool, ?_⟩
  · intro iCat iUp iGen attempts
    rfl
  · intro iCat
    rw [hpool]
    simp [randChoiceOpt, Nat.mod_one]

/-- Claim C3: `choose` is a no-op on a locked round; on an unlocked
round it leaves the hand untouched, increments `total` by one,
increments `correct` by one exactly when the submitted action equals
the reference action computed with the instantaneous
`canDouble`/`canSplit` flags, and locks the round, after which any
further `choose` is a no-op — scoring happens exactly once. -/
theorem c3_choose_scores_once (s : GUI.GUIState) (a : Act) :
    (s.locked = true → GUI.choose s a = s) ∧
    (s.locked = false →
      (GUI.choose s a).player_cards = s.player_cards ∧
      (GUI.choose s a).dealer_up = s.dealer_up ∧
      (GUI.choose s a).has_hit = s.has_hit ∧
      (GUI.choose s a).locked = true ∧
      (GUI.choose s a).total = s.total + 1 ∧
      (GUI.choose s a).correct =
        (if a = GUI.basic_strategy_action s.player_cards s.dealer_up
              (!s.has_hit && s.player_cards.length == 2)
              (!s.has_hit && s.player_cards.length == 2 && GUI.can_split s.player_cards)
         then s.correct + 1 else s.correct) ∧
      (∀ b : Act, GUI.choose (GUI.choose s a) b = GUI.choose s a)) := by
  constructor
  · intro h
    simp [GUI.choose, h]
  · intro h
    refine ⟨?_, ?_, ?_, ?_, ?_, ?_, ?_⟩ <;> simp [GUI.choose, h]

/-- Witness for C3: submitting Split on an unlocked pair-of-8s round
increments the total counter from 5 to 6. -/
theorem c3_witness :
    (GUI.choose ⟨[Rank.r8, Rank.r8], Rank.r10, false, false, 2, 5⟩ Act.P).total = 5 + 1 :=
  ((c3_choose_scores_once ⟨[Rank.r8, Rank.r8], Rank.r10, false, false, 2, 5⟩ Act.P).2
    rfl).2.2.2.2.1

/-- Claim C4 counterexample: splitting a pair of 8s and then drawing
another 8 yields a fresh two-card hand on which Split is offered
again, so Split is not limited to once per round. -/
theorem c4_counterexample :
    Act.P ∈ allowed_actions (split_step [Rank.r8, Rank.r8] Rank.r8).1
      (split_step [Rank.r8, Rank.r8] Rank.r8).2 := by decide

/-- Claim C4 amended: after Split the pair's second card is discarded
and one drawn card joins the first, forming a fresh unhit two-card
hand immediately eligible for Hit, Stand and Double; it is eligible
for Split again exactly when the kept and drawn cards share a
normalized rank (Split is NOT limited to once per round). -/
theorem c4_split_fresh_hand :
    ∀ c0 c1 d : Rank,
      split_step [c0, c1] d = ([c0, d], false) ∧
      Act.H ∈ allowed_actions [c0, d] false ∧
      Act.S ∈ allowed_actions [c0, d] false ∧
      Act.D ∈ allowed_actions [c0, d] false ∧
      (Act.P ∈ allowed_actions [c0, d] false ↔ normalize_rank c0 = normalize_rank d) := by
  decide

/-- Claim C5 counterexample: a zero-deck shoe rebuilds to an empty
pool and the pop fails, so `draw` is not total over every shoe
state. -/
theorem c5_counterexample : Shoe.draw id { decks := 0, cards := [] } = none := by decide

/-- Claim C5 amended: for every shoe with at least one deck and every
length-preserving shuffle, `draw` succeeds; when the pool is below the
52-card threshold it first rebuilds to `decks*52` cards, leaving
`decks*52 - 1` after the pop, and otherwise it just pops one card. -/
theorem c5_draw_total (shuffle : List Rank → List Rank)
    (hs : ∀ l, (shuffle l).length = l.length) (s : Shoe) (hd : 1 ≤ s.decks) :
    ∃ c s2, Shoe.draw shuffle s = some (c, s2) ∧ s2.decks = s.decks ∧
      (s.cards.length < 52 → s2.cards.length = s.decks * 52 - 1) ∧
      (¬ s.cards.length < 52 → s2.cards.length = s.cards.length - 1) := by
  by_cases hlow : s.cards.length < 52
  · have hlen : (shuffle (buildCards s.decks)).length = s.decks * 52 := by
      rw [hs, buildCards_length]
    have hne : shuffle (buildCards s.decks) ≠ [] := by
      intro hnil
      rw [hnil] at hlen
      simp at hlen
      omega
    cases hrev : (shuffle (buildCards s.decks)).reverse with
    | nil => exact absurd (by simpa using hrev) hne
    | cons c rest =>
      have hcount := congrArg List.length hrev
      simp only [List.length_reverse, List.length_cons] at hcount
      refine ⟨c, { s with cards := rest.reverse }, ?_, rfl, ?_, ?_⟩
      · simp only [Shoe.draw, if_pos hlow, hrev]
      · intro _
        simp only [List.length_reverse]
        omega
      · intro hcon
        exact absurd hlow hcon
  · have hge : 52 ≤ s.cards.length := by omega
    have hne : s.cards ≠ [] := by
      intro hnil
      rw [hnil] at hge
      simp at hge
    cases hrev : s.cards.reverse with
    | nil => exact absurd (by simpa using hrev) hne
    | cons c rest =>
      have hcount := congrArg List.length hrev
      simp only [List.length_reverse, List.length_cons] at hcount
      refine ⟨c, { s with cards := rest.reverse }, ?_, rfl, ?_, ?_⟩
      · simp only [Shoe.draw, if_neg hlow, hrev]
      · intro hcon
        exact absurd hcon hlow
      · intro _
        simp only [List.length_reverse]
        omega

/-- Witness for C5: a one-deck shoe with an empty pool rebuilds and
draws successfully. -/
theorem c5_witness :
    ∃ c s2, Shoe.draw id { decks := 1, cards := [] } = some (c, s2) ∧ s2.decks = 1 ∧
      (([] : List Rank).length < 52 → s2.cards.length = 1 * 52 - 1) ∧
      (¬ ([] : List Rank).length < 52 → s2.cards.length = ([] : List Rank).length - 1) :=
  c5_draw_total id (fun _ => rfl) { decks := 1, cards := [] } (by decide)

/-- `dealer_play` stands (returns the hand unchanged) as soon as the
total is at least 17, including on soft 17. -/
theorem dealer_play_stand {stream : Nat → Rank} {idx : Nat} {cards : List Rank}
    (h : ¬ (hand_value (cards.map mapJQK)).1 < 17) :
    dealer_play stream idx cards = cards := by
  rw [dealer_play]
  simp [h]

/-- `dealer_play` draws exactly one card and loops while the total is
below 17. -/
theorem dealer_play_hit {stream : Nat → Rank} {idx : Nat} {cards : List Rank}
    (h : (hand_value (cards.map mapJQK)).1 < 17) :
    dealer_play stream idx cards = dealer_play stream (idx + 1) (cards ++ [stream idx]) := by
  conv_lhs => rw [dealer_play]
  rw [dif_pos h]

/-- Every hand returned by `dealer_play` totals at least 17. -/
theorem dealer_play_ge (stream : Nat → Rank) (idx : Nat) (cards : List Rank) :
    17 ≤ (hand_value ((dealer_play stream idx cards).map mapJQK)).1 := by
  by_cases h : (hand_value (cards.map mapJQK)).1 < 17
  · rw [dealer_play_hit h]
    exact dealer_play_ge stream (idx + 1) (cards ++ [stream idx])
  · rw [dealer_play_stand h]
    omega
termination_by 17 - hardTotal (cards.map mapJQK)
decreasing_by
  have h1 := hand_value_fst_ge_hard (cards.map mapJQK)
  have h2 : 1 ≤ hardVal (mapJQK (stream idx)) := by
    cases stream idx <;> simp [hardVal, mapJQK, normalize_rank, CARD_VALUES]
  have h3 : hardTotal ((cards ++ [stream idx]).map mapJQK)
      = hardTotal (cards.map mapJQK) + hardVal (mapJQK (stream idx)) := by
    simp [hardTotal, List.map_append]
  omega

/-- Claim C6: `dealer_play` draws exactly while the total is below 17
and stands once it is 17 or more — in particular on soft 17 — so its
result always totals at least 17, and the soft-17 hand A+6 is returned
unchanged with no card drawn. -/
theorem c6_dealer_stands_on_17 (stream : Nat → Rank) (idx : Nat) (cards : List Rank) :
    17 ≤ (hand_value ((dealer_play stream idx cards).map mapJQK)).1 ∧
    (17 ≤ (hand_value (cards.map mapJQK)).1 → dealer_play stream idx cards = cards) ∧
    ((hand_value (cards.map mapJQK)).1 < 17 →
      dealer_play stream idx cards = dealer_play stream (idx + 1) (cards ++ [stream idx])) ∧
    dealer_play stream idx [Rank.A, Rank.r6] = [Rank.A, Rank.r6] ∧
    hand_value ([Rank.A, Rank.r6].map mapJQK) = (17, true) := by
  refine ⟨dealer_play_ge stream idx cards, ?_, fun h => dealer_play_hit h, ?_, by decide⟩
  · intro h
    exact dealer_play_stand (by omega)
  · exact dealer_play_stand (by decide)

/-- Witness for C6: a dealer hand of two tens stands immediately. -/
theorem c6_witness :
    dealer_play (fun _ => Rank.r2) 0 [Rank.r10, Rank.r10] = [Rank.r10, Rank.r10] :=
  (c6_dealer_stands_on_17 (fun _ => Rank.r2) 0 [Rank.r10, Rank.r10]).2.1 (by decide)

/-- Claim C7: with `canSplit` true, the pair rows of
`basic_strategy_action` behave as specified: aces and eights split
against every dealer upcard; any ten-group pair stands (never splits)
against every upcard; a pair of fives never splits — it doubles
exactly when `canDouble` holds and the dealer class is 2..9, else
hits; in particular 5,5 vs 10 with `canDouble` hits and 8,8 vs 10
splits. -/
theorem c7_pair_rows :
    ∀ (up : Rank) (cd : Bool),
      basic_strategy_action [Rank.A, Rank.A] up cd true = Act.P ∧
      basic_strategy_action [Rank.r8, Rank.r8] up cd true = Act.P ∧
      (∀ t1 t2 : Rank, normalize_rank t1 = Rank.r10 → normalize_rank t2 = Rank.r10 →
        basic_strategy_action [t1, t2] up cd true = Act.S ∧
        basic_strategy_action [t1, t2] up cd true ≠ Act.P) ∧
      (basic_strategy_action [Rank.r5, Rank.r5] up cd true =
        if cd && decide (normalize_rank up ∈
            [Rank.r2, Rank.r3, Rank.r4, Rank.r5, Rank.r6, Rank.r7, Rank.r8, Rank.r9])
        then Act.D else Act.H) ∧
      basic_strategy_action [Rank.r5, Rank.r5] Rank.r10 true true = Act.H ∧
      basic_strategy_action [Rank.r8, Rank.r8] Rank.r10 cd true = Act.P := by
  decide

/-- Witness for C7: a jack-queen "pair" stands against a dealer 2. -/
theorem c7_witness :
    basic_strategy_action [Rank.J, Rank.Q] Rank.r2 true true = Act.S :=
  (((c7_pair_rows Rank.r2 true).2.2.1) Rank.J Rank.Q (by decide) (by decide)).1

/-- Claim C8 counterexample: with entropy that picks suit index 0
twice, the images pair generator produces two copies of the very same
physical card (Ace of spades twice) — the suits are not distinct. -/
theorem c8_counterexample :
    Img.gen_pair_hand 0 0 0
      = [{ rank := Rank.A, suit := Img.Suit.S }, { rank := Rank.A, suit := Img.Suit.S }] ∧
    (Img.gen_pair_hand 0 0 0).get? 0 = (Img.gen_pair_hand 0 0 0).get? 1 := by
  decide

/-- Claim C8 amended: the images pair generator always produces two
cards of the same rank, whose suits are sampled uniformly and
independently of each other and of the rank — so the two suits may
coincide and a duplicate physical card is possible. -/
theorem c8_pair_same_rank_indep_suits (ir s1 s2 : Nat) :
    Img.gen_pair_hand ir s1 s2 =
      [{ rank := randChoice Img.pairPool Rank.A ir, suit := randChoice Img.SUITS Img.Suit.S s1 },
       { rank := randChoice Img.pairPool Rank.A ir, suit := randChoice Img.SUITS Img.Suit.S s2 }] :=
  rfl

/-- Claim C9 counterexample: in the images variant the dealer-upcard
choice pool, mapped to normalized classes, contains the ten class four
times but the Ace class once — the classes are not equally likely. -/
theorem c9_counterexample :
    (Img.upPool.map normalize_rank).count Rank.r10 = 4 ∧
    (Img.upPool.map normalize_rank).count Rank.A = 1 ∧
    (Img.upPool.map normalize_rank).count Rank.r10
      ≠ (Img.upPool.map normalize_rank).count Rank.A := by
  decide

/-- Claim C9 amended: the text and plain-GUI variants sample the
dealer upcard uniformly from a 10-element pool holding each normalized
class exactly once; the images variant samples the raw rank uniformly
from all 13 ranks, so the ten class appears with multiplicity 4 (and
every other class once), and its suit is drawn uniformly from the four
suits, independently of the rank index. -/
theorem c9_upcard_distribution :
    (∀ c : Rank, (upPool.map normalize_rank).count c = if c ∈ upPool then 1 else 0) ∧
    upPool.length = 10 ∧
    (∀ c : Rank, (Img.upPool.map normalize_rank).count c =
      if c = Rank.r10 then 4 else if c ∈ upPool then 1 else 0) ∧
    Img.upPool.length = 13 ∧
    (∀ i si : Nat, Img.random_dealer_up i si =
      { rank := randChoice Img.upPool Rank.r2 i, suit := randChoice Img.SUITS Img.Suit.S si }) := by
  exact ⟨by decide, by decide, by decide, by decide, fun i si => rfl⟩

/-- Claim C10: when the dealt player hand is a blackjack,
`run_one_hand` asks for no decision (the submitted-action stream is
irrelevant, even empty) and returns `True`, and `main` then increments
both session counters. -/
theorem c10_blackjack_skips_quiz (cards : List Rank) (up : Rank) (draws : Nat → Rank)
    (decisions : List Act) (c t : Nat) (h : is_blackjack cards = true) :
    run_one_hand cards up draws decisions = some true ∧
    session_update c t true = (c + 1, t + 1) := by
  constructor
  · simp [run_one_hand, h]
  · rfl

/-- Witness for C10: the dealt hand A+K is a blackjack, scores as
correct with no submitted action, and the counters 3/7 become 4/8. -/
theorem c10_witness :
    run_one_hand [Rank.A, Rank.K] Rank.r5 (fun _ => Rank.r2) [] = some true ∧
    session_update 3 7 true = (3 + 1, 7 + 1) :=
  c10_blackjack_skips_quiz [Rank.A, Rank.K] Rank.r5 (fun _ => Rank.r2) [] 3 7 (by decide)
